import Mathlib

/-!
Verification development for the docker-optimizer repository.

The repository analyzes a running container filesystem and splits files
into used and unused classes.  The relevant code is translated here as a
shallow embedding: every exec call against the container is represented
by its observable result (exit code and decoded output), and the pure
text processing and set manipulation of the Python source is reproduced
on Lean strings and finsets.

Python string primitives are modelled on character lists, so that every
definition evaluates inside the kernel.
-/

/-- Result of one exec call against the container: exit code and the
decoded stdout text. -/
structure ExecResult where
  exit_code : Int
  output : String
deriving DecidableEq

/-- Python str.startswith: the characters of p are a leading segment of
the characters of s. -/
def pyStartswith (s p : String) : Bool := p.data.isPrefixOf s.data

/-- Python str.endswith: the characters of p are a trailing segment of
the characters of s. -/
def pyEndswith (s p : String) : Bool := p.data.isSuffixOf s.data

/-- Python substring containment, sub in s, on character lists. -/
def containsSeq (sep : List Char) : List Char → Bool
  | [] => sep.isEmpty
  | c :: cs => sep.isPrefixOf (c :: cs) || containsSeq sep cs

/-- Python sub in s for strings. -/
def pyContains (s sub : String) : Bool := containsSeq sub.data s.data

/-- Split a character list at every occurrence of the character c,
keeping empty chunks, as Python str.split(c) does. -/
def splitOnChar (c : Char) : List Char → List (List Char)
  | [] => [[]]
  | x :: xs =>
    match splitOnChar c xs with
    | [] => [[]]
    | h :: t => if x = c then [] :: h :: t else (x :: h) :: t

/-- Python s.split(chr), specialised to the newline splits used by the
source. -/
def pySplitOn (c : Char) (s : String) : List String :=
  (splitOnChar c s.data).map String.mk

/-- Python s.split(newline), the line splitting used throughout the
source. -/
def pySplitLines (s : String) : List String := pySplitOn '\n' s

/-- Python str.strip with no argument: drop whitespace from both ends. -/
def pyStrip (s : String) : String :=
  String.mk (((s.data.dropWhile Char.isWhitespace).reverse.dropWhile
    Char.isWhitespace).reverse)

/-- Python s.strip applied with a double quote argument: drop that
character from both ends. -/
def pyStripQuotes (s : String) : String :=
  String.mk (((s.data.dropWhile (· = '"')).reverse.dropWhile (· = '"')).reverse)

/-- Helper for Python whitespace splitting: accumulates the current word
reversed and emits maximal nonempty words. -/
def splitWsAux : List Char → List Char → List (List Char)
  | [], acc => if acc.isEmpty then [] else [acc.reverse]
  | c :: cs, acc =>
    if c.isWhitespace then
      if acc.isEmpty then splitWsAux cs [] else acc.reverse :: splitWsAux cs []
    else splitWsAux cs (c :: acc)

/-- Python str.split with no argument: split on whitespace runs,
discarding empty words. -/
def pySplitWs (s : String) : List String := (splitWsAux s.data []).map String.mk

/-- Python str.split with no separator and maxsplit of one: leading
whitespace dropped, then the first word, then the remainder with the
separating whitespace run removed; at most two chunks. -/
def pySplitMax1 (s : String) : List String :=
  let rest0 := s.data.dropWhile Char.isWhitespace
  if rest0.isEmpty then []
  else
    let w := rest0.takeWhile (fun c => ¬ c.isWhitespace)
    let rest1 := (rest0.dropWhile (fun c => ¬ c.isWhitespace)).dropWhile
      Char.isWhitespace
    if rest1.isEmpty then [String.mk w] else [String.mk w, String.mk rest1]

/-- Digit-sequence value accumulator for the int parser. -/
def digitsValAux : List Char → Nat → Option Nat
  | [], acc => some acc
  | c :: cs, acc =>
    if c.isDigit then digitsValAux cs (acc * 10 + (c.toNat - 48)) else none

/-- Python int(str) on the strings produced by the enumeration parser:
optional sign then a nonempty run of decimal digits; anything else is a
ValueError, modelled as none. -/
def pyInt? (s : String) : Option Int :=
  let t := ((s.data.dropWhile Char.isWhitespace).reverse.dropWhile
    Char.isWhitespace).reverse
  match t with
  | '-' :: rest =>
    if rest.isEmpty then none
    else (digitsValAux rest 0).map (fun n => -(n : Int))
  | '+' :: rest =>
    if rest.isEmpty then none
    else (digitsValAux rest 0).map (fun n => (n : Int))
  | rest =>
    if rest.isEmpty then none
    else (digitsValAux rest 0).map (fun n => (n : Int))

/-- Python s[n:] character slicing. -/
def pyDrop (s : String) (n : Nat) : String := String.mk (s.data.drop n)

/-- Split a character list at every occurrence of a nonempty separator
sequence, with fuel for termination; mirrors Python str.split(sep). -/
def splitOnSeqAux (sep : List Char) : Nat → List Char → List (List Char)
  | _, [] => [[]]
  | 0, l => [l]
  | Nat.succ fuel, x :: xs =>
    if sep.isPrefixOf (x :: xs) then
      [] :: splitOnSeqAux sep fuel ((x :: xs).drop sep.length)
    else
      match splitOnSeqAux sep fuel xs with
      | [] => [[x]]
      | h :: t => (x :: h) :: t

/-- Python s.split(sep) for a string separator. -/
def pySplitOnStr (s sep : String) : List String :=
  (splitOnSeqAux sep.data s.data.length s.data).map String.mk

/-!
Embedding of optimizer.DockerAnalyzer.get_unused_files.

The container interactions of the function are its four exec calls; a
ContainerExec value records their observable results.  The maps read is
keyed by the pid string extracted from the process table.
-/

/-- Observable results of the exec calls issued by get_unused_files. -/
structure ContainerExec where
  find_result : ExecResult
  lsof_result : ExecResult
  ps_result : ExecResult
  maps_result : String → ExecResult

/-- The open-descriptor evidence of get_unused_files: when lsof exits
zero, the lines starting with the letter n and a slash, with that first
letter removed; otherwise the empty set.  The same parsing is
FilesystemAnalyzer.get_lsof_files, which also returns the empty set on
failure. -/
def lsofUsedFiles (r : ExecResult) : Finset String :=
  if r.exit_code = 0 then
    (((pySplitLines r.output).filter
      (fun line => pyStartswith line "n/")).map (fun line => pyDrop line 1)).toFinset
  else ∅

/-- One process: the words taken from its maps listing.  Mirrors the
generator over the maps lines: a line is used when nonempty and not
ending in a space and zero, contributing its last whitespace-separated
word; a line whose whitespace split is empty raises IndexError, which
aborts the remaining lines of this process. -/
def mapsFileEntries : List String → List String
  | [] => []
  | line :: rest =>
    if line = "" ∨ pyEndswith line " 0" then mapsFileEntries rest
    else
      match (pySplitWs line).getLast? with
      | none => []
      | some w => w :: mapsFileEntries rest

/-- The process-map evidence of get_unused_files: when ps exits zero,
iterate the process table minus its header line; for each nonempty row
take the second word as pid (rows without one are skipped), read the
maps file of that pid, and on exit zero collect its entries. -/
def procUsedFiles (c : ContainerExec) : Finset String :=
  if c.ps_result.exit_code = 0 then
    ((pySplitLines c.ps_result.output).drop 1).foldl
      (fun acc proc =>
        if proc = "" then acc
        else
          match (pySplitWs proc).drop 1 with
          | [] => acc
          | pid :: _ =>
            let m := c.maps_result pid
            if m.exit_code = 0 then
              acc ∪ (mapsFileEntries (pySplitLines m.output)).toFinset
            else acc)
      ∅
  else ∅

/-- The exclusion entries hardcoded by get_unused_files. -/
def system_paths : List String :=
  ["/bin", "/sbin", "/lib", "/lib64", "/usr/bin", "/usr/sbin",
   "/usr/lib", "/etc", "/var/log", "/var/run", "/dev", "/proc", "/sys"]

/-- The exclusion test of get_unused_files: f.startswith(path) for any
of the hardcoded entries. -/
def isSystemExcluded (f : String) : Bool :=
  system_paths.any (fun p => pyStartswith f p)

/-- The unused-file comprehension of get_unused_files: enumerated paths
that are nonempty, match no exclusion entry, and are not in the used
set. -/
def unusedClass (all_files used_files : Finset String) : Finset String :=
  all_files.filter
    (fun f => f ≠ "" ∧ isSystemExcluded f = false ∧ f ∉ used_files)

/-- The internal state of get_unused_files just before it builds its
return value: the enumerated set, the merged used set, and the unused
comprehension. -/
structure Classification where
  all_files : Finset String
  used_files : Finset String
  unused_files : Finset String
deriving DecidableEq

/-- The set-level content of get_unused_files: none when the find exec
fails, otherwise the enumerated set from the find output lines, the
union of the two evidence sets, and the unused comprehension. -/
def classify (c : ContainerExec) : Option Classification :=
  if c.find_result.exit_code ≠ 0 then none
  else
    let all_files := (pySplitLines c.find_result.output).toFinset
    let used_files := lsofUsedFiles c.lsof_result ∪ procUsedFiles c
    some ⟨all_files, used_files, unusedClass all_files used_files⟩

/-- The dictionary returned by get_unused_files: counts of the three
sets and the sorted unused list. -/
structure UnusedReport where
  all_files : Nat
  used_files : Nat
  unused_files : List String
  total_unused : Nat
deriving DecidableEq

/-- optimizer.DockerAnalyzer.get_unused_files: the returned dictionary,
with sorted(list(unused_files)) modelled by the canonical ascending sort
of the unused finset. -/
def get_unused_files (c : ContainerExec) : Option UnusedReport :=
  match classify c with
  | none => none
  | some cls =>
    some ⟨cls.all_files.card, cls.used_files.card,
          cls.unused_files.sort (· ≤ ·), cls.unused_files.card⟩

/-!
Embedding of FilesystemAnalyzer.
-/

/-- One line of the sized enumeration output: strip the line, split it
into at most two chunks, require exactly two, parse the first as an
integer size, and remove surrounding double quotes from the second; a
parse error skips the line. -/
def parseSizeLine (line : String) : Option (String × Int) :=
  match pySplitMax1 (pyStrip line) with
  | [sizeStr, pathStr] =>
    match pyInt? sizeStr with
    | some n => some (pyStripQuotes pathStr, n)
    | none => none
  | _ => none

/-- FilesystemAnalyzer.get_all_files_with_size: the empty list when the
find exec fails, otherwise every nonempty output line that parses as a
size and path pair, in output order and without any deduplication. -/
def get_all_files_with_size (r : ExecResult) : List (String × Int) :=
  if r.exit_code ≠ 0 then []
  else (pySplitLines r.output).filterMap
    (fun line => if line = "" then none else parseSizeLine line)

/-- The byte total the enumerator reports: the plain sum of the sizes of
all returned records. -/
def total_size (records : List (String × Int)) : Int :=
  (records.map Prod.snd).sum

/-- The exclusion entries hardcoded by FilesystemAnalyzer.is_system_path. -/
def fs_system_paths : List String :=
  ["/proc", "/sys", "/dev", "/tmp", "/run", "/var/run",
   "/var/lock", "/var/cache", "/var/log"]

/-- FilesystemAnalyzer.is_system_path: path.startswith(p) for any of the
hardcoded entries. -/
def is_system_path (path : String) : Bool :=
  fs_system_paths.any (fun p => pyStartswith path p)

/-- FilesystemAnalyzer.get_proc_files: when the fd listing exec exits
zero, for every line containing an arrow the second arrow-separated
chunk, stripped, kept when it starts with a slash; otherwise empty. -/
def get_proc_files (r : ExecResult) : Finset String :=
  if r.exit_code = 0 then
    ((pySplitLines r.output).filterMap
      (fun line =>
        if pyContains line " -> " then
          let target := pyStrip ((pySplitOnStr line " -> ").getD 1 "")
          if pyStartswith target "/" then some target else none
        else none)).toFinset
  else ∅

/-- The common_used constant of FilesystemAnalyzer.get_all_used_files,
added to the used set regardless of any collector output. -/
def common_used : Finset String :=
  {"/etc/passwd", "/etc/group", "/etc/hosts",
   "/etc/resolv.conf", "/etc/ssl/certs",
   "/usr/lib", "/lib", "/bin", "/sbin"}

/-- FilesystemAnalyzer.get_all_used_files: the union of the lsof
evidence, the proc fd evidence, and the hardcoded common_used set. -/
def get_all_used_files (lsofR procR : ExecResult) : Finset String :=
  lsofUsedFiles lsofR ∪ get_proc_files procR ∪ common_used

/-!
Derived classes and size sums.

get_unused_files returns only counts; the spec talks about used, unused
and excluded classes with byte sizes.  The class definitions below apply
the code exclusion test to the enumerated set, and the size sums weight
each class by the records of the sized enumeration.
-/

/-- The excluded class over an enumerated set: nonempty paths matching
one of the optimizer exclusion entries. -/
def excludedClass (all : Finset String) : Finset String :=
  all.filter (fun f => f ≠ "" ∧ isSystemExcluded f = true)

/-- The used class restricted to the enumerated set and cleared of
excluded paths: nonempty enumerated paths that match no exclusion entry
and carry evidence. -/
def usedNotExcludedClass (all used : Finset String) : Finset String :=
  all.filter (fun f => f ≠ "" ∧ isSystemExcluded f = false ∧ f ∈ used)

/-- Sum of the sizes of the records whose path lies in the used set. -/
def used_size (records : List (String × Int)) (used : Finset String) : Int :=
  total_size (records.filter (fun rc => rc.1 ∈ used))

/-- Sum of the sizes of the records whose path matches an exclusion
entry. -/
def excluded_size (records : List (String × Int)) : Int :=
  total_size (records.filter (fun rc => isSystemExcluded rc.1))

/-- Sum of the sizes of the records whose path the code would classify
unused: nonempty, no exclusion match, no evidence. -/
def unused_size (records : List (String × Int)) (used : Finset String) : Int :=
  total_size (records.filter
    (fun rc => rc.1 ≠ "" ∧ isSystemExcluded rc.1 = false ∧ rc.1 ∉ used))

/-- Sum of the sizes of the records with evidence and no exclusion
match. -/
def used_not_excluded_size (records : List (String × Int))
    (used : Finset String) : Int :=
  total_size (records.filter
    (fun rc => isSystemExcluded rc.1 = false ∧ rc.1 ∈ used))

/-- First-seen deduplication of enumeration records, written from the
words of the spec for comparison with the code: keep a record when its
path was not seen before. -/
def dedupFirstAux (seen : List String) : List (String × Int) → List (String × Int)
  | [] => []
  | rc :: rest =>
    if rc.1 ∈ seen then dedupFirstAux seen rest
    else rc :: dedupFirstAux (rc.1 :: seen) rest

/-- First-seen deduplication from the empty seen set. -/
def dedupFirstSeen (records : List (String × Int)) : List (String × Int) :=
  dedupFirstAux [] records

/-!
Optimization Advisor.
-/

/-- One advisor suggestion, as consumed by utils.display_analysis_results. -/
structure OptimizationSuggestion where
  category : String
  description : String
  potential_savings : Int
  priority : Int
deriving DecidableEq

/-- Modelled from the spec: the package-manager cache entries of advisor
rule three; the advisor itself is absent from the repository sources. -/
def package_cache_paths : List String :=
  ["/var/cache/apt", "/var/cache/yum", "/root/.cache/pip"]

/-- Modelled from the spec: the Optimization Advisor of spec section 4.4
is absent from the repository sources; only its display caller in
utils.display_analysis_results is present.  Rule one emits one
suggestion of priority one for unused files larger than the threshold,
rule two one suggestion of priority two for byte-identical duplicates
across layers, rule three one suggestion of priority three for
package-manager cache entries among the unused files; a rule without a
match emits nothing, and savings are the sums of the matching sizes. -/
def advise (unused : List (String × Int))
    (layer_duplicates : List (String × Int))
    (large_file_threshold_bytes : Int) : List OptimizationSuggestion :=
  let large := unused.filter (fun rc => large_file_threshold_bytes < rc.2)
  let rule1 : List OptimizationSuggestion :=
    if large.isEmpty then []
    else [⟨"large unused files", "Remove large files not used at runtime",
           total_size large, 1⟩]
  let rule2 : List OptimizationSuggestion :=
    if layer_duplicates.isEmpty then []
    else [⟨"files duplicated across layers", "Deduplicate layer contents",
           total_size layer_duplicates, 2⟩]
  let caches := unused.filter
    (fun rc => package_cache_paths.any (fun p => pyStartswith rc.1 p))
  let rule3 : List OptimizationSuggestion :=
    if caches.isEmpty then []
    else [⟨"package manager caches", "Remove package manager cache entries",
           total_size caches, 3⟩]
  rule1 ++ rule2 ++ rule3

/-- utils.display_analysis_results: suggestions are printed after a
stable sort ascending by priority. -/
def displaySortedSuggestions (l : List OptimizationSuggestion) :
    List OptimizationSuggestion :=
  l.mergeSort (fun a b => decide (a.priority ≤ b.priority))

/-!
Theorems.
-/

/-- Characters determine the string. -/
theorem stringDataInj {s t : String} (h : s.data = t.data) : s = t := by
  cases s; exact congrArg String.mk h

/-- Written from the words of the spec, for comparison with the code: a
path is excluded when it equals a configured entry or is a filesystem
descendant of one, meaning it continues the entry with a path
separator. -/
def specDescendantExcluded (path : String) : Bool :=
  fs_system_paths.any
    (fun p => path == p || (p.data ++ ['/']).isPrefixOf path.data)

/-- C5 counterexample: the code excludes the path /devil because of the
string prefix /dev, although /devil neither equals /dev nor lies inside
it, contradicting the parenthetical of the claim. -/
theorem c5_counterexample :
    is_system_path "/devil" = true ∧ specDescendantExcluded "/devil" = false := by
  decide

/-- C5 amended: a path is excluded exactly when some configured entry is
a character prefix of it, that is, when it equals the entry, descends
from it, or merely continues it without a path separator (for instance
/devil under the entry /dev). -/
theorem c5_amended (path : String) :
    is_system_path path = true ↔
      (specDescendantExcluded path = true ∨
       ∃ p ∈ fs_system_paths, ∃ c r,
         path.data = p.data ++ c :: r ∧ c ≠ '/') := by
  unfold is_system_path specDescendantExcluded pyStartswith
  simp only [List.any_eq_true, Bool.or_eq_true, beq_iff_eq,
    List.isPrefixOf_iff_prefix]
  constructor
  · rintro ⟨p, hp, t, ht⟩
    match t, ht with
    | [], ht =>
      left
      exact ⟨p, hp, Or.inl (stringDataInj (by simpa using ht)).symm⟩
    | '/' :: r, ht =>
      left
      exact ⟨p, hp, Or.inr ⟨r, by simpa using ht⟩⟩
    | c :: r, ht =>
      by_cases hc : c = '/'
      · subst hc
        left
        exact ⟨p, hp, Or.inr ⟨r, by simpa using ht⟩⟩
      · right
        exact ⟨p, hp, c, r, ht.symm, hc⟩
  · rintro (⟨p, hp, hcase⟩ | ⟨p, hp, c, r, heq, _⟩)
    · rcases hcase with heq | ⟨r, hr⟩
      · exact ⟨p, hp, [], by simp [heq]⟩
      · exact ⟨p, hp, '/' :: r, by simpa using hr⟩
    · exact ⟨p, hp, c :: r, heq.symm⟩

/-- The used set of the reconciliation, as a fold of union over the
evidence sets in arrival order. -/
def mergeEvidence (es : List (Finset String)) : Finset String :=
  es.foldr (· ∪ ·) ∅

/-- The merged union is invariant under permutation of the evidence
list. -/
theorem mergeEvidence_perm {l₁ l₂ : List (Finset String)} (h : l₁.Perm l₂) :
    mergeEvidence l₁ = mergeEvidence l₂ := by
  induction h with
  | nil => rfl
  | cons x _ ih => simp only [mergeEvidence, List.foldr_cons] at *; rw [ih]
  | swap x y l =>
    simp only [mergeEvidence, List.foldr_cons]
    rw [← Finset.union_assoc, Finset.union_comm y x, Finset.union_assoc]
  | trans _ _ ih₁ ih₂ => exact ih₁.trans ih₂

/-- C3: permuting the evidence sets never changes the merged used set
nor the used or unused classes built from it; the excluded class does
not read the evidence at all. -/
theorem c3_theorem (all : Finset String) (l₁ l₂ : List (Finset String))
    (h : l₁.Perm l₂) :
    mergeEvidence l₁ = mergeEvidence l₂ ∧
    unusedClass all (mergeEvidence l₁) = unusedClass all (mergeEvidence l₂) ∧
    usedNotExcludedClass all (mergeEvidence l₁) =
      usedNotExcludedClass all (mergeEvidence l₂) := by
  have hm := mergeEvidence_perm h
  exact ⟨hm, by rw [hm], by rw [hm]⟩

/-- C3 witness: a transposition of two concrete evidence sets. -/
theorem c3_witness :
    mergeEvidence [({"/f"} : Finset String), {"/g"}] =
      mergeEvidence [{"/g"}, {"/f"}] ∧
    unusedClass {"/a"} (mergeEvidence [({"/f"} : Finset String), {"/g"}]) =
      unusedClass {"/a"} (mergeEvidence [{"/g"}, {"/f"}]) ∧
    usedNotExcludedClass {"/a"}
        (mergeEvidence [({"/f"} : Finset String), {"/g"}]) =
      usedNotExcludedClass {"/a"} (mergeEvidence [{"/g"}, {"/f"}]) :=
  c3_theorem {"/a"} [{"/f"}, {"/g"}] [{"/g"}, {"/f"}]
    (List.Perm.swap {"/g"} {"/f"} [])

/-- The exact-partition property claimed for a reconciliation result:
the used, unused and excluded classes cover the enumerated set, are
pairwise disjoint, and in particular the used class is a subset of the
enumerated set. -/
def partitionsExactly (o : Option Classification) : Prop :=
  match o with
  | none => True
  | some cls =>
    cls.used_files ∪ cls.unused_files ∪ excludedClass cls.all_files =
      cls.all_files ∧
    cls.used_files ∩ cls.unused_files = ∅ ∧
    cls.used_files ∩ excludedClass cls.all_files = ∅ ∧
    cls.unused_files ∩ excludedClass cls.all_files = ∅ ∧
    cls.used_files ⊆ cls.all_files

/-- A run whose lsof evidence names a path that the enumeration does not
contain. -/
def execC1 : ContainerExec :=
  ⟨⟨0, "/a\n"⟩, ⟨0, "n/b\n"⟩, ⟨1, ""⟩, fun _ => ⟨1, ""⟩⟩

/-- The classification computed on execC1. -/
def c1cls : Classification := ⟨{"/a", ""}, {"/b"}, {"/a"}⟩

/-- C1 counterexample: on a run that enumerates only /a while lsof
reports /b, the used class contains the non-enumerated path /b, so the
three classes do not partition the enumerated set. -/
theorem c1_counterexample : ¬ partitionsExactly (classify execC1) := by
  have h : classify execC1 = some c1cls := by decide
  rw [h]
  intro hcl
  exact absurd (hcl.2.2.2.2 (by decide : "/b" ∈ c1cls.used_files)) (by decide)

/-- C1 amended: restricted to nonempty paths, the enumerated set is
partitioned exactly by the excluded class, the evidenced non-excluded
class, and the unused class; the used set itself is not restricted to
the enumerated set and may also touch excluded paths. -/
theorem c1_amended (c : ContainerExec) (cls : Classification)
    (h : classify c = some cls) :
    cls.all_files.filter (fun f => f ≠ "") =
      excludedClass cls.all_files ∪
        usedNotExcludedClass cls.all_files cls.used_files ∪
        cls.unused_files ∧
    excludedClass cls.all_files ∩
      usedNotExcludedClass cls.all_files cls.used_files = ∅ ∧
    excludedClass cls.all_files ∩ cls.unused_files = ∅ ∧
    usedNotExcludedClass cls.all_files cls.used_files ∩ cls.unused_files = ∅ := by
  unfold classify at h
  split at h
  · exact Option.noConfusion h
  · injection h with h'
    subst h'
    refine ⟨?_, ?_, ?_, ?_⟩ <;>
      · ext f
        simp only [excludedClass, usedNotExcludedClass, unusedClass,
          Finset.mem_filter, Finset.mem_union, Finset.mem_inter,
          Finset.not_mem_empty, iff_false, not_and]
        cases hb : isSystemExcluded f <;> simp [hb] <;> tauto

/-- C1 witness: the amended partition evaluated on the concrete run
execC1. -/
theorem c1_amended_witness :
    c1cls.all_files.filter (fun f => f ≠ "") =
      excludedClass c1cls.all_files ∪
        usedNotExcludedClass c1cls.all_files c1cls.used_files ∪
        c1cls.unused_files ∧
    excludedClass c1cls.all_files ∩
      usedNotExcludedClass c1cls.all_files c1cls.used_files = ∅ ∧
    excludedClass c1cls.all_files ∩ c1cls.unused_files = ∅ ∧
    usedNotExcludedClass c1cls.all_files c1cls.used_files ∩
      c1cls.unused_files = ∅ :=
  c1_amended execC1 c1cls (by decide)

/-- A sized enumeration holding one record under /proc. -/
def recordsC2 : List (String × Int) := get_all_files_with_size ⟨0, "5 /proc/x\n"⟩

/-- An evidence set naming that same record. -/
def usedC2 : Finset String := lsofUsedFiles ⟨0, "n/proc/x\n"⟩

/-- C2 counterexample: a record that is both evidenced and under an
exclusion entry is counted by the used sum and by the excluded sum, so
the three class sums exceed the total. -/
theorem c2_counterexample :
    total_size recordsC2 ≠
      used_size recordsC2 usedC2 + unused_size recordsC2 usedC2 +
        excluded_size recordsC2 := by
  decide

/-- Splitting a sum of sizes along three mutually exclusive and jointly
exhaustive tests. -/
theorem total_size_filter_three (p q w : (String × Int) → Bool)
    (l : List (String × Int))
    (h : ∀ rc ∈ l, (p rc).toNat + (q rc).toNat + (w rc).toNat = 1) :
    total_size l =
      total_size (l.filter p) + total_size (l.filter q) +
        total_size (l.filter w) := by
  induction l with
  | nil => rfl
  | cons rc rest ih =>
    have h0 := h rc (List.mem_cons_self _ _)
    have ih2 := ih (fun x hx => h x (List.mem_cons_of_mem _ hx))
    simp only [total_size, List.filter_cons, List.map_cons, List.sum_cons]
      at ih2 ⊢
    cases hp : p rc <;> cases hq : q rc <;> cases hw : w rc <;>
      simp [hp, hq, hw] at h0 ⊢ <;> omega

/-- C2 amended: with the classes made disjoint, excluded first and the
evidenced class cleared of excluded paths, the three sums add up to the
total over every record list with nonempty paths. -/
theorem c2_amended (records : List (String × Int)) (used : Finset String)
    (h : ∀ rc ∈ records, rc.1 ≠ "") :
    total_size records =
      excluded_size records + used_not_excluded_size records used +
        unused_size records used := by
  unfold excluded_size used_not_excluded_size unused_size
  refine total_size_filter_three _ _ _ records ?_
  intro rc hrc
  have hne : rc.1 ≠ "" := h rc hrc
  cases hb : isSystemExcluded rc.1 <;> by_cases hu : rc.1 ∈ used <;>
    simp [hb, hu, hne]

/-- C2 witness: the disjoint sums on the concrete overlap run. -/
theorem c2_amended_witness :
    total_size recordsC2 =
      excluded_size recordsC2 + used_not_excluded_size recordsC2 usedC2 +
        unused_size recordsC2 usedC2 :=
  c2_amended recordsC2 usedC2 (by decide)

/-- An exec call that failed. -/
def failedExec : ExecResult := ⟨1, ""⟩

/-- C4 counterexample: with every collector failing, both evidence sets
are empty, yet the used set of get_all_used_files contains the
hardcoded path /etc/passwd, which therefore appeared in no evidence
set. -/
theorem c4_counterexample :
    "/etc/passwd" ∈ get_all_used_files failedExec failedExec ∧
    lsofUsedFiles failedExec = ∅ ∧ get_proc_files failedExec = ∅ := by
  decide

/-- C4 amended: every member of the used set either appeared in one of
the evidence sets or is one of the hardcoded common_used paths; in the
reconciliation of get_unused_files the used set is exactly the union of
the two evidence sets. -/
theorem c4_amended :
    (∀ lr pr : ExecResult, ∀ f, f ∈ get_all_used_files lr pr →
      f ∈ lsofUsedFiles lr ∨ f ∈ get_proc_files pr ∨ f ∈ common_used) ∧
    (∀ c : ContainerExec, ∀ cls : Classification, classify c = some cls →
      cls.used_files = lsofUsedFiles c.lsof_result ∪ procUsedFiles c) := by
  constructor
  · intro lr pr f hf
    simp only [get_all_used_files, Finset.mem_union] at hf
    tauto
  · intro c cls h
    unfold classify at h
    split at h
    · exact Option.noConfusion h
    · injection h with h'
      subst h'
      rfl

/-- C4 witness: the amended statement applied to the failing collectors
and to the concrete run execC1. -/
theorem c4_amended_witness :
    ("/etc/passwd" ∈ lsofUsedFiles failedExec ∨
     "/etc/passwd" ∈ get_proc_files failedExec ∨
     "/etc/passwd" ∈ common_used) ∧
    c1cls.used_files =
      lsofUsedFiles execC1.lsof_result ∪ procUsedFiles execC1 :=
  ⟨c4_amended.1 failedExec failedExec "/etc/passwd" (by decide),
   c4_amended.2 execC1 c1cls (by decide)⟩

/-- An enumeration whose output lists the same path twice, as a
hardlink does. -/
def execC6 : ExecResult := ⟨0, "5 /a\n5 /a\n"⟩

/-- C6 counterexample: the enumerator keeps both records for the
duplicated path, and the total counts the path twice; first-seen
deduplication would keep one record with total five. -/
theorem c6_counterexample :
    get_all_files_with_size execC6 = [("/a", 5), ("/a", 5)] ∧
    dedupFirstSeen (get_all_files_with_size execC6) = [("/a", 5)] ∧
    total_size (get_all_files_with_size execC6) = 10 ∧
    total_size (get_all_files_with_size execC6) ≠
      total_size (dedupFirstSeen (get_all_files_with_size execC6)) := by
  decide

/-- Grouping the size total by path: every record contributes, so a
path appearing several times contributes the sum of all its entries. -/
theorem total_size_fiberwise (l : List (String × Int)) (s : Finset String)
    (h : ∀ rc ∈ l, rc.1 ∈ s) :
    total_size l =
      Finset.sum s (fun p => total_size (l.filter (fun rc => rc.1 = p))) := by
  induction l with
  | nil => simp [total_size]
  | cons rc rest ih =>
    have h0 := h rc (List.mem_cons_self _ _)
    have ih2 := ih (fun x hx => h x (List.mem_cons_of_mem _ hx))
    have hsplit :
        (Finset.sum s (fun p =>
          total_size ((rc :: rest).filter (fun x => x.1 = p)))) =
        Finset.sum s (fun p =>
          (if rc.1 = p then rc.2 else 0) +
            total_size (rest.filter (fun x => x.1 = p))) := by
      refine Finset.sum_congr rfl (fun p _ => ?_)
      simp only [total_size, List.filter_cons]
      by_cases hp : rc.1 = p <;> simp [hp]
    rw [hsplit, Finset.sum_add_distrib,
      Finset.sum_ite_eq s rc.1 (fun _ => rc.2), if_pos h0, ← ih2]
    simp [total_size]

/-- C6 amended: the enumeration performs no deduplication; the total
size is the sum, over the distinct enumerated paths, of the sizes of
all records carrying that path, so a duplicated path contributes once
per entry rather than once. -/
theorem c6_amended (r : ExecResult) :
    total_size (get_all_files_with_size r) =
      Finset.sum ((get_all_files_with_size r).map Prod.fst).toFinset
        (fun p => total_size
          ((get_all_files_with_size r).filter (fun rc => rc.1 = p))) :=
  total_size_fiberwise _ _
    (fun rc h => by
      simp only [List.mem_toFinset]
      exact List.mem_map_of_mem Prod.fst h)

/-- A run whose lsof collector fails. -/
def execC7fail : ContainerExec :=
  ⟨⟨0, "/a\n/b\n"⟩, ⟨1, ""⟩, ⟨1, ""⟩, fun _ => ⟨1, ""⟩⟩

/-- The same run with lsof succeeding and reporting nothing. -/
def execC7ok : ContainerExec :=
  ⟨⟨0, "/a\n/b\n"⟩, ⟨0, ""⟩, ⟨1, ""⟩, fun _ => ⟨1, ""⟩⟩

/-- C7 counterexample: the run with a failed lsof collector returns a
result, but that result is identical to the one of a run where lsof
succeeded with no open files, so no function of the result can mark the
failed source: the claimed partial_failure annotation does not exist. -/
theorem c7_counterexample :
    (get_unused_files execC7fail).isSome = true ∧
    ¬ ∃ flag : UnusedReport → Bool,
        (∀ rpt, get_unused_files execC7fail = some rpt → flag rpt = true) ∧
        (∀ rpt, get_unused_files execC7ok = some rpt → flag rpt = false) := by
  have hcl : classify execC7fail = classify execC7ok := by decide
  have hrep : get_unused_files execC7fail = get_unused_files execC7ok := by
    unfold get_unused_files
    rw [hcl]
  have hsome : classify execC7fail = some ⟨{"/a", "/b", ""}, ∅, {"/a", "/b"}⟩ := by
    decide
  constructor
  · unfold get_unused_files
    rw [hsome]
    rfl
  · rintro ⟨flag, h1, h2⟩
    cases hx : get_unused_files execC7fail with
    | none =>
      unfold get_unused_files at hx
      rw [hsome] at hx
      exact Option.noConfusion hx
    | some rpt =>
      have ht := h1 rpt hx
      have hf := h2 rpt (hrep ▸ hx)
      rw [ht] at hf
      exact Bool.noConfusion hf

/-- When the enumeration exec succeeds the run returns a result. -/
theorem get_unused_files_isSome (c : ContainerExec)
    (h : c.find_result.exit_code = 0) : (get_unused_files c).isSome = true := by
  unfold get_unused_files classify
  rw [if_neg (by simp [h])]
  rfl

/-- A failed lsof exec classifies like an lsof exec that succeeded with
empty output. -/
theorem classify_lsof_failed (c : ContainerExec)
    (h : c.lsof_result.exit_code ≠ 0) :
    classify c = classify ⟨c.find_result, ⟨0, ""⟩, c.ps_result, c.maps_result⟩ := by
  have hl : lsofUsedFiles c.lsof_result = lsofUsedFiles ⟨0, ""⟩ := by
    simp only [lsofUsedFiles, if_neg h]
    decide
  unfold classify procUsedFiles
  rw [hl]

/-- A failed process-table exec classifies like one that succeeded with
empty output. -/
theorem classify_ps_failed (c : ContainerExec)
    (h : c.ps_result.exit_code ≠ 0) :
    classify c = classify ⟨c.find_result, c.lsof_result, ⟨0, ""⟩, c.maps_result⟩ := by
  have hp : procUsedFiles c =
      procUsedFiles ⟨c.find_result, c.lsof_result, ⟨0, ""⟩, c.maps_result⟩ := by
    unfold procUsedFiles
    rw [if_neg h]
    rfl
  unfold classify
  rw [hp]

/-- A single process whose maps read fails contributes nothing, exactly
as if its maps read had succeeded with empty output; the other
processes are unaffected. -/
theorem procUsedFiles_maps_failed (c : ContainerExec) (pid : String)
    (h : (c.maps_result pid).exit_code ≠ 0) :
    procUsedFiles c =
      procUsedFiles ⟨c.find_result, c.lsof_result, c.ps_result,
        fun q => if q = pid then ⟨0, ""⟩ else c.maps_result q⟩ := by
  have key : ∀ (rows : List String) (acc : Finset String),
      List.foldl (fun acc proc =>
        if proc = "" then acc
        else
          match List.drop 1 (pySplitWs proc) with
          | [] => acc
          | p :: _ =>
            if (c.maps_result p).exit_code = 0 then
              acc ∪ (mapsFileEntries (pySplitLines (c.maps_result p).output)).toFinset
            else acc) acc rows =
      List.foldl (fun acc proc =>
        if proc = "" then acc
        else
          match List.drop 1 (pySplitWs proc) with
          | [] => acc
          | p :: _ =>
            if (if p = pid then (⟨0, ""⟩ : ExecResult) else c.maps_result p).exit_code = 0 then
              acc ∪ (mapsFileEntries (pySplitLines
                (if p = pid then (⟨0, ""⟩ : ExecResult)
                 else c.maps_result p).output)).toFinset
            else acc) acc rows := by
    intro rows
    induction rows with
    | nil => intro acc; rfl
    | cons r rs ih =>
      intro acc
      simp only [List.foldl_cons]
      by_cases hr : r = ""
      · rw [if_pos hr, if_pos hr]
        exact ih acc
      · rw [if_neg hr, if_neg hr]
        cases hsplit : List.drop 1 (pySplitWs r) with
        | nil => exact ih acc
        | cons p rest =>
          dsimp only
          by_cases hp : p = pid
          · subst hp
            rw [if_neg h, if_pos rfl]
            dsimp only
            rw [if_pos rfl]
            have hempty : (mapsFileEntries (pySplitLines "")).toFinset =
                (∅ : Finset String) := by decide
            rw [hempty, Finset.union_empty]
            exact ih acc
          · rw [if_neg hp]
            exact ih _
  unfold procUsedFiles
  dsimp only
  by_cases hps : c.ps_result.exit_code = 0
  · rw [if_pos hps, if_pos hps]
    exact key _ ∅
  · rw [if_neg hps, if_neg hps]

/-- A run with one failed maps read classifies like the run where that
read succeeded with empty output. -/
theorem classify_maps_failed (c : ContainerExec) (pid : String)
    (h : (c.maps_result pid).exit_code ≠ 0) :
    classify c = classify ⟨c.find_result, c.lsof_result, c.ps_result,
      fun q => if q = pid then ⟨0, ""⟩ else c.maps_result q⟩ := by
  unfold classify
  rw [procUsedFiles_maps_failed c pid h]

/-- C7 amended: any single collector failing is recovered locally, the
run still returning a normal result with that collector contributing an
empty path set; but no partial-failure mark is recorded anywhere: for a
failed lsof exec, a failed process-table exec, a failed maps read of a
single process, and a failed proc fd listing alike, the result is
identical to that of a run where the same source succeeded with empty
output. -/
theorem c7_amended :
    (∀ c : ContainerExec, c.lsof_result.exit_code ≠ 0 →
      get_unused_files c =
        get_unused_files ⟨c.find_result, ⟨0, ""⟩, c.ps_result, c.maps_result⟩ ∧
      (c.find_result.exit_code = 0 → (get_unused_files c).isSome = true)) ∧
    (∀ c : ContainerExec, c.ps_result.exit_code ≠ 0 →
      get_unused_files c =
        get_unused_files ⟨c.find_result, c.lsof_result, ⟨0, ""⟩, c.maps_result⟩ ∧
      (c.find_result.exit_code = 0 → (get_unused_files c).isSome = true)) ∧
    (∀ (c : ContainerExec) (pid : String), (c.maps_result pid).exit_code ≠ 0 →
      get_unused_files c =
        get_unused_files ⟨c.find_result, c.lsof_result, c.ps_result,
          fun q => if q = pid then ⟨0, ""⟩ else c.maps_result q⟩ ∧
      (c.find_result.exit_code = 0 → (get_unused_files c).isSome = true)) ∧
    (∀ lr pr : ExecResult, pr.exit_code ≠ 0 →
      get_proc_files pr = ∅ ∧
      get_all_used_files lr pr = get_all_used_files lr ⟨0, ""⟩) := by
  refine ⟨fun c h => ⟨?_, get_unused_files_isSome c⟩,
          fun c h => ⟨?_, get_unused_files_isSome c⟩,
          fun c pid h => ⟨?_, get_unused_files_isSome c⟩,
          fun lr pr h => ⟨?_, ?_⟩⟩
  · unfold get_unused_files
    rw [classify_lsof_failed c h]
  · unfold get_unused_files
    rw [classify_ps_failed c h]
  · unfold get_unused_files
    rw [classify_maps_failed c pid h]
  · unfold get_proc_files
    rw [if_neg h]
  · have hpr : get_proc_files pr = get_proc_files ⟨0, ""⟩ := by
      unfold get_proc_files
      rw [if_neg h]
      decide
    unfold get_all_used_files
    rw [hpr]

/-- C7 witness: each collector failing on a concrete run. -/
theorem c7_amended_witness :
    (get_unused_files execC7fail =
      get_unused_files ⟨execC7fail.find_result, ⟨0, ""⟩, execC7fail.ps_result,
        execC7fail.maps_result⟩ ∧
     (execC7fail.find_result.exit_code = 0 →
       (get_unused_files execC7fail).isSome = true)) ∧
    (get_unused_files execC7fail =
      get_unused_files ⟨execC7fail.find_result, execC7fail.lsof_result, ⟨0, ""⟩,
        execC7fail.maps_result⟩ ∧
     (execC7fail.find_result.exit_code = 0 →
       (get_unused_files execC7fail).isSome = true)) ∧
    (get_unused_files execC7fail =
      get_unused_files ⟨execC7fail.find_result, execC7fail.lsof_result,
        execC7fail.ps_result,
        fun q => if q = "1" then ⟨0, ""⟩ else execC7fail.maps_result q⟩ ∧
     (execC7fail.find_result.exit_code = 0 →
       (get_unused_files execC7fail).isSome = true)) ∧
    (get_proc_files failedExec = ∅ ∧
     get_all_used_files failedExec failedExec =
       get_all_used_files failedExec ⟨0, ""⟩) :=
  ⟨c7_amended.1 execC7fail (by decide),
   c7_amended.2.1 execC7fail (by decide),
   c7_amended.2.2.1 execC7fail "1" (by decide),
   c7_amended.2.2.2 failedExec failedExec (by decide)⟩

/-- A failing enumeration exec. -/
def execC8 : ExecResult := ⟨1, "find: cannot read root"⟩

/-- C8 counterexample: when the enumeration command fails, the
enumerator returns the empty list, the very value of a successful run
over an empty tree, so no function of the result can signal the claimed
fatal error: failure and emptiness are indistinguishable. -/
theorem c8_counterexample :
    get_all_files_with_size execC8 = get_all_files_with_size ⟨0, ""⟩ ∧
    ¬ ∃ isError : List (String × Int) → Bool,
        isError (get_all_files_with_size execC8) = true ∧
        isError (get_all_files_with_size ⟨0, ""⟩) = false := by
  have he : get_all_files_with_size execC8 = get_all_files_with_size ⟨0, ""⟩ := by
    decide
  refine ⟨he, ?_⟩
  rintro ⟨f, h1, h2⟩
  rw [he, h2] at h1
  exact Bool.noConfusion h1

/-- C8 amended: an unparseable entry is skipped without aborting, but a
failing enumeration command yields the empty list rather than a
distinct error signal. -/
theorem c8_amended :
    (∀ r : ExecResult, r.exit_code ≠ 0 → get_all_files_with_size r = []) ∧
    get_all_files_with_size ⟨0, "bad /a\n5 /b\n"⟩ = [("/b", 5)] := by
  constructor
  · intro r h
    unfold get_all_files_with_size
    rw [if_pos h]
  · decide

/-- C8 witness: the amended statement on the concrete failing exec. -/
theorem c8_amended_witness : get_all_files_with_size execC8 = [] :=
  c8_amended.1 execC8 (by decide)

/-- C9: on the scenario partition with one unused file of twenty
mebibytes and a ten mebibyte threshold, the advisor returns exactly one
suggestion, of category large unused files, with the full file size as
savings and priority one; and on every input its output is ascending in
priority. -/
theorem c9_theorem :
    ((advise [("/big", 20971520)] [] 10485760).map
        (fun s => (s.category, s.potential_savings, s.priority)) =
      [("large unused files", 20971520, 1)]) ∧
    ∀ (unused dups : List (String × Int)) (thr : Int),
      List.Pairwise (fun a b : OptimizationSuggestion => a.priority ≤ b.priority)
        (advise unused dups thr) := by
  constructor
  · decide
  · intro unused dups thr
    unfold advise
    by_cases h1 : (unused.filter (fun rc => thr < rc.2)).isEmpty <;>
      by_cases h2 : dups.isEmpty <;>
      by_cases h3 : (unused.filter
        (fun rc => package_cache_paths.any
          (fun p => pyStartswith rc.1 p))).isEmpty <;>
      simp [h1, h2, h3]

/-- C10: every successful usage analysis returns a strictly ascending,
duplicate-free unused list whose length is the reported total. -/
theorem c10_theorem (c : ContainerExec) (rpt : UnusedReport)
    (h : get_unused_files c = some rpt) :
    List.Sorted (· < ·) rpt.unused_files ∧ rpt.unused_files.Nodup ∧
    rpt.total_unused = rpt.unused_files.length := by
  unfold get_unused_files at h
  cases hcl : classify c with
  | none =>
    rw [hcl] at h
    exact Option.noConfusion h
  | some cls =>
    rw [hcl] at h
    injection h with h2
    subst h2
    exact ⟨Finset.sort_sorted_lt _, Finset.sort_nodup _ _,
      (Finset.length_sort _).symm⟩

/-- A run whose unused class is the single path /x. -/
def execC10 : ContainerExec :=
  ⟨⟨0, "/x\n"⟩, ⟨1, ""⟩, ⟨1, ""⟩, fun _ => ⟨1, ""⟩⟩

/-- C10 witness: the sortedness statement on the concrete run. -/
theorem c10_witness :
    List.Sorted (· < ·) (["/x"] : List String) ∧
    (["/x"] : List String).Nodup ∧
    (1 : Nat) = (["/x"] : List String).length := by
  have hcl : classify execC10 = some ⟨{"/x", ""}, ∅, {"/x"}⟩ := by decide
  have h : get_unused_files execC10 = some ⟨2, 0, ["/x"], 1⟩ := by
    unfold get_unused_files
    rw [hcl]
    show some (UnusedReport.mk (Finset.card {"/x", ""}) (Finset.card ∅)
      (Finset.sort (· ≤ ·) {"/x"}) (Finset.card {"/x"})) =
      some (UnusedReport.mk 2 0 ["/x"] 1)
    rw [Finset.sort_singleton]
    decide
  exact c10_theorem execC10 ⟨2, 0, ["/x"], 1⟩ h
